import Mathlib

/-!
Verification of the JsonlBatch execution engine (config.py, utils.py,
processor.py) against its specification.  Python values are embedded as the
inductive `PyVal`; each engine component is translated into an executable
Lean function mirroring the source line by line.
-/

/-- A dynamically typed Python value, restricted to the shapes that flow
through the engine: JSON scalars and containers, tuples (used by the worker
to tag failures) and exception objects (which are not JSON serializable). -/
inductive PyVal : Type where
  | none : PyVal
  | bool : Bool → PyVal
  | int : Int → PyVal
  | str : String → PyVal
  | list : List PyVal → PyVal
  | tuple : List PyVal → PyVal
  | dict : List (String × PyVal) → PyVal
  | exc : String → PyVal

/-- A parsed JSON object: `json.loads` of a line of one of the JSONL files.
The engine only ever calls `.get` on parsed lines, so we record them as
key/value association lists. -/
abbrev Dict := List (String × PyVal)

mutual
/-- Python `==` on the embedded values (used by `in` on the processed-id
set). -/
def pyBeq : PyVal → PyVal → Bool
  | .none, .none => true
  | .bool a, .bool b => a == b
  | .int a, .int b => a == b
  | .str a, .str b => a == b
  | .list a, .list b => pyBeqList a b
  | .tuple a, .tuple b => pyBeqList a b
  | .dict a, .dict b => pyBeqEntries a b
  | .exc a, .exc b => a == b
  | _, _ => false

def pyBeqList : List PyVal → List PyVal → Bool
  | [], [] => true
  | a :: as, b :: bs => pyBeq a b && pyBeqList as bs
  | _, _ => false

def pyBeqEntries : List (String × PyVal) → List (String × PyVal) → Bool
  | [], [] => true
  | (k, v) :: as, (k', v') :: bs => k == k' && pyBeq v v' && pyBeqEntries as bs
  | _, _ => false
end

/-- Python truthiness (`if not record_id:`): `None`, `False`, `0`, the empty
string and empty containers are falsy. -/
def pyTruthy : PyVal → Bool
  | .none => false
  | .bool b => b
  | .int n => n != 0
  | .str s => s ≠ ""
  | .list l => !l.isEmpty
  | .tuple l => !l.isEmpty
  | .dict l => !l.isEmpty
  | .exc _ => true

/-- `data.get(key)`: the value under `key`, or `None` when absent. -/
def dGet (d : Dict) (k : String) : PyVal :=
  match d.lookup k with
  | some v => v
  | Option.none => PyVal.none

/-- `data.get(key, default)`. -/
def dGetD (d : Dict) (k : String) (dflt : PyVal) : PyVal :=
  match d.lookup k with
  | some v => v
  | Option.none => dflt

/-- `key in data`. -/
def hasKey (d : Dict) (k : String) : Bool :=
  d.any (fun e => e.1 == k)

/-- JSON string quoting: `json.dumps` escapes quotes and backslashes
(`ensure_ascii=False`, so non-ASCII passes through unchanged). -/
def jsonQuote (s : String) : String :=
  "\"" ++ String.join (s.data.map (fun c =>
    if c = '"' then "\\\"" else if c = '\\' then "\\\\" else String.singleton c)) ++ "\""

mutual
/-- `json.dumps(item, ensure_ascii=False)`: `Option.none` models the
`TypeError` raised on a value that is not JSON serializable (here: an
exception object). -/
def jsonDumps : PyVal → Option String
  | .none => some "null"
  | .bool true => some "true"
  | .bool false => some "false"
  | .int n => some (toString n)
  | .str s => some (jsonQuote s)
  | .list l => (jsonDumpsList l).map (fun parts => "[" ++ String.intercalate ", " parts ++ "]")
  | .tuple l => (jsonDumpsList l).map (fun parts => "[" ++ String.intercalate ", " parts ++ "]")
  | .dict d => (jsonDumpsEntries d).map (fun parts => "\x7b" ++ String.intercalate ", " parts ++ "\x7d")
  | .exc _ => Option.none

def jsonDumpsList : List PyVal → Option (List String)
  | [] => some []
  | v :: vs =>
    match jsonDumps v, jsonDumpsList vs with
    | some s, some ss => some (s :: ss)
    | _, _ => Option.none

def jsonDumpsEntries : List (String × PyVal) → Option (List String)
  | [] => some []
  | (k, v) :: es =>
    match jsonDumps v, jsonDumpsEntries es with
    | some s, some ss => some ((jsonQuote k ++ ": " ++ s) :: ss)
    | _, _ => Option.none
end

/-! ## Resume-state loader and task selector (processor.py) -/

/-- A line of a JSONL file after `json.loads`: `Except.error` models a
`json.JSONDecodeError`, `Except.ok` a successfully parsed object. -/
abbrev Line := Except Unit Dict

/-- Is the rerun key "configured": `if self.config.RERUN_KEY and ...` — the
key must be present and truthy (a non-empty string). -/
def rerunConfigured : Option String → Bool
  | Option.none => false
  | some s => s ≠ ""

/-- `_load_processed_state`, as a function of the parsed success-file lines:
builds the list of already-processed IDs.  Parse failures are warned and
skipped; lines whose ID is absent or falsy are skipped; when the rerun key
is configured and present on the line the ID is skipped (forcing rerun);
otherwise the ID is added. -/
def loadProcessedState (idKey : String) (rerunKey : Option String) : List Line → List PyVal
  | [] => []
  | Except.error _ :: rest => loadProcessedState idKey rerunKey rest
  | Except.ok d :: rest =>
    let rid := dGet d idKey
    if !pyTruthy rid then loadProcessedState idKey rerunKey rest
    else if rerunConfigured rerunKey && hasKey d (rerunKey.getD "") then
      loadProcessedState idKey rerunKey rest
    else rid :: loadProcessedState idKey rerunKey rest

/-- The two warning kinds `_get_tasks_to_process` can log for a line. -/
inductive Warn : Type where
  | parseFail : Warn
  | missingId : Warn
deriving DecidableEq

/-- Result of the task selector: the filtered tasks plus the warnings it
logged, each paired with the line number it reported. -/
structure SelOut : Type where
  tasks : List Dict
  warns : List (Warn × Nat)

/-- The loop body of `_get_tasks_to_process`, carrying the running
`line_num` exactly as the source does: on a parse failure the warning is
logged and `line_num += 1` runs; on a missing/falsy ID the warning is
logged and the branch `continue`s, skipping `line_num += 1`; otherwise the
record is kept when its ID is not in the processed set and `line_num += 1`
runs. -/
def selectGo (idKey : String) (processed : List PyVal) : List Line → Nat → SelOut
  | [], _ => ⟨[], []⟩
  | Except.error _ :: rest, n =>
    let o := selectGo idKey processed rest (n + 1)
    ⟨o.tasks, (Warn.parseFail, n) :: o.warns⟩
  | Except.ok d :: rest, n =>
    let rid := dGet d idKey
    if !pyTruthy rid then
      let o := selectGo idKey processed rest n
      ⟨o.tasks, (Warn.missingId, n) :: o.warns⟩
    else
      let o := selectGo idKey processed rest (n + 1)
      if processed.any (fun p => pyBeq rid p) then o
      else ⟨d :: o.tasks, o.warns⟩

/-- `_get_tasks_to_process` on an existing input file: `line_num` starts
at 1. -/
def getTasksToProcess (idKey : String) (processed : List PyVal) (lines : List Line) : SelOut :=
  selectGo idKey processed lines 1

/-! ## Retry wrapper (utils.py `retry_with_backoff`) -/

/-- Events observable in a run of the retry-wrapped, rate-limited call:
entering a rate-limit slot, invoking the wrapped function, and a backoff
sleep between attempts. -/
inductive REv : Type where
  | rateWait : REv
  | callFn : REv
  | backoff : REv
deriving DecidableEq

/-- Result of the retry wrapper: the wrapped function's value, the last
error re-raised after exhaustion, or the (unreachable) `RuntimeError`
raised after the loop. -/
inductive RetryResult (E A : Type) : Type where
  | ok : A → RetryResult E A
  | err : E → RetryResult E A
  | runtimeError : RetryResult E A

/-- A run of the retry wrapper: the event trace, the result and the number
of invocations and backoff sleeps performed. -/
structure RetryOut (E A : Type) : Type where
  trace : List REv
  result : RetryResult E A
  calls : Nat
  sleeps : Nat

/-- The `for i in range(retries + 1)` loop of `retry_with_backoff.wrapper`:
`op i` gives the events emitted by and the outcome of the i-th invocation
of the wrapped function; `fuel` is the number of loop iterations left, so
`fuel = 0` after destructuring means `i == retries` (raise, no sleep). -/
def retryGo (op : Nat → List REv × Except E A) (i : Nat) : Nat → RetryOut E A
  | 0 => ⟨[], RetryResult.runtimeError, 0, 0⟩
  | fuel + 1 =>
    match op i with
    | (evs, Except.ok a) => ⟨evs, RetryResult.ok a, 1, 0⟩
    | (evs, Except.error e) =>
      if fuel = 0 then ⟨evs, RetryResult.err e, 1, 0⟩
      else
        let rest := retryGo op (i + 1) fuel
        ⟨evs ++ REv.backoff :: rest.trace, rest.result, rest.calls + 1, rest.sleeps + 1⟩

/-- `retry_with_backoff(retries, ...)` applied to an operation. -/
def retryWithBackoff (retries : Nat) (op : Nat → List REv × Except E A) : RetryOut E A :=
  retryGo op 0 (retries + 1)

/-! ## Rate limiter (processor.py `rate_limited_process`) -/

/-- `request_delay = 60.0 / rpm if rpm and rpm > 0 else 0`. -/
def requestDelay (rpm : Int) : ℚ :=
  if 0 < rpm then 60 / (rpm : ℚ) else 0

/-- One pass through the rate-limit section for a protected call, as a
function of the `_last_request_time` value and the monotonic time `now` at
which the mutex was acquired.  Returns the start time of the protected call
and the new `_last_request_time`.  When `request_delay > 0` the remaining
wait is computed and slept under the lock and the timestamp is set to the
post-sleep monotonic time; otherwise the section is skipped entirely. -/
def rateLimitedStart (delay last now : ℚ) : ℚ × ℚ :=
  if 0 < delay then
    let start := if now - last < delay then last + delay else now
    (start, start)
  else (now, last)

/-- The successive protected-call start times produced by threading
`_last_request_time` through a sequence of lock acquisitions (the mutex
serializes the passes). -/
def limiterTrace (delay : ℚ) : ℚ → List ℚ → List ℚ
  | _, [] => []
  | last, a :: as =>
    let p := rateLimitedStart delay last a
    p.1 :: limiterTrace delay p.2 as

/-- The events of one invocation of `rate_limited_process`: when rate
limiting is active the rate-limit section is entered before the user
function is called; otherwise the user function is called directly. -/
def rateLimitedEvents (delayPos : Bool) : List REv :=
  if delayPos then [REv.rateWait, REv.callFn] else [REv.callFn]

/-- `robust_processor = retry_with_backoff(...)(rate_limited_process)`:
every attempt runs `rate_limited_process` whole, so each attempt's events
are `rateLimitedEvents` followed by the attempt's outcome `script i`. -/
def robustProcessor (retries : Nat) (delayPos : Bool) (script : Nat → Except E A) : RetryOut E A :=
  retryWithBackoff retries (fun i => (rateLimitedEvents delayPos, script i))

/-! ## Batched writer (processor.py `_write_batch`) -/

/-- The write loop inside `_write_batch`: each item is serialized with
`json.dumps` and written as one line; a `TypeError` from `json.dumps`
aborts the loop and is not caught. -/
def writeItems : List PyVal → List String → Except String (List String)
  | [], file => Except.ok file
  | it :: rest, file =>
    match jsonDumps it with
    | some s => writeItems rest (file ++ [s ++ "\n"])
    | Option.none => Except.error "TypeError: Object is not JSON serializable"

/-- `_write_batch`: an empty batch returns immediately; an `OSError` while
opening/writing (modelled by `osFail`) is caught, logged and swallowed
(the batch is lost); any other error propagates to the caller. -/
def writeBatch (osFail : Bool) (batch : List PyVal) (file : List String) : Except String (List String) :=
  if batch.isEmpty then Except.ok file
  else if osFail then Except.ok file
  else writeItems batch file

/-! ## Outcome loop (processor.py `_run_processing_loop`) -/

/-- `isinstance(x, Exception)`. -/
def isExc : PyVal → Bool
  | .exc _ => true
  | _ => false

/-- The failure record built in the outcome loop:
`{"record_id": original_task.get(ID_KEY, "N/A"), "error_message": str(exc),
"original_record": original_task}`. -/
def mkFailureRecord (idKey : String) (excMsg : String) (orig : Dict) : PyVal :=
  .dict [("record_id", dGetD orig idKey (.str "N/A")),
         ("error_message", .str excMsg),
         ("original_record", .dict orig)]

/-- `worker`: runs the robust processor on a task under the semaphore and
converts a raised exception into the tagged tuple `(e, task)` (the
unreachable `RuntimeError` after the retry loop is an `Exception` too and
is caught the same way). -/
def worker (outcome : RetryResult String PyVal) (task : Dict) : PyVal :=
  match outcome with
  | RetryResult.ok v => v
  | RetryResult.err e => .tuple [.exc e, .dict task]
  | RetryResult.runtimeError => .tuple [.exc "RuntimeError", .dict task]

/-- The mutable state of the outcome loop: the two pending batches, the two
counters, and the current contents of the two output files (as lists of
written lines). -/
structure LoopState : Type where
  resultsBatch : List PyVal
  errorsBatch : List PyVal
  successCount : Nat
  errorCount : Nat
  outFile : List String
  errFile : List String

/-- The classification block of the outcome loop applied to one awaited
worker result: `isinstance(result, tuple) and isinstance(result[0],
Exception)` selects the failure branch (indexing an empty tuple raises
`IndexError`; unpacking a tuple of length ≠ 2 raises `ValueError`, and a
non-dict original record makes `.get` raise `AttributeError` — all
unreachable for worker-shaped results); `elif result is not None` selects
the success branch, appending the value verbatim; otherwise (a `None`
result) nothing is recorded. -/
def classifyUpdate (idKey : String) (st : LoopState) (r : PyVal) : Except String LoopState :=
  match r with
  | .tuple [] => Except.error "IndexError: tuple index out of range"
  | .tuple (h :: t) =>
    if isExc h then
      match h, t with
      | .exc m, [orig] =>
        match orig with
        | .dict d =>
          Except.ok { st with errorsBatch := st.errorsBatch ++ [mkFailureRecord idKey m d],
                              errorCount := st.errorCount + 1 }
        | _ => Except.error "AttributeError: object has no attribute get"
      | _, _ => Except.error "ValueError: not enough values to unpack"
    else
      Except.ok { st with resultsBatch := st.resultsBatch ++ [.tuple (h :: t)],
                          successCount := st.successCount + 1 }
  | .none => Except.ok st
  | v => Except.ok { st with resultsBatch := st.resultsBatch ++ [v],
                             successCount := st.successCount + 1 }

/-- The two threshold checks at the end of each loop iteration: when a
pending batch has reached `WRITE_BATCH_SIZE` it is written and reset. -/
def flushIfFull (bs : Nat) (st : LoopState) : Except String LoopState := do
  let st1 ←
    if bs ≤ st.resultsBatch.length then do
      let f ← writeBatch false st.resultsBatch st.outFile
      pure { st with resultsBatch := [], outFile := f }
    else pure st
  if bs ≤ st1.errorsBatch.length then do
    let f ← writeBatch false st1.errorsBatch st1.errFile
    pure { st1 with errorsBatch := [], errFile := f }
  else pure st1

/-- One iteration of the `for future in pbar` loop. -/
def loopStep (idKey : String) (bs : Nat) (st : LoopState) (r : PyVal) : Except String LoopState := do
  flushIfFull bs (← classifyUpdate idKey st r)

/-- The outcome loop over the worker results it consumes before finishing
or being interrupted. -/
def processResults (idKey : String) (bs : Nat) (st : LoopState) : List PyVal → Except String LoopState
  | [] => Except.ok st
  | r :: rest => do processResults idKey bs (← loopStep idKey bs st r) rest

/-- The `finally` block of `_run_processing_loop`: write both pending
batches to their files. -/
def finalFlush (st : LoopState) : Except String (List String × List String) := do
  let out ← writeBatch false st.resultsBatch st.outFile
  let err ← writeBatch false st.errorsBatch st.errFile
  Except.ok (out, err)

/-- The fresh loop state at entry of `_run_processing_loop`, over the
files' prior contents. -/
def initLoopState (outFile errFile : List String) : LoopState :=
  ⟨[], [], 0, 0, outFile, errFile⟩

/-- The dispatcher's effect on the two output files for a run that consumed
the given list of worker results (all of them on normal completion, a
prefix when a cancellation or error interrupts the loop) and then ran the
`finally` flush. -/
def dispatcherFiles (idKey : String) (bs : Nat) (outFile errFile : List String)
    (consumed : List PyVal) : Except String (List String × List String) := do
  finalFlush (← processResults idKey bs (initLoopState outFile errFile) consumed)

/-! ## Configuration (config.py `Settings` vs processor.py `ConfigProtocol`) -/

/-- Attribute lookup on the `settings` object that `main.py` passes to
`JsonlBatchProcessor`: exactly the class attributes `Settings` defines
(`getattr` on anything else raises `AttributeError`, modelled by
`Option.none`). -/
def settingsAttr : String → Option PyVal
  | "INPUT_FILE" => some (.str "data/input.jsonl")
  | "OUTPUT_FILE" => some (.str "data/output.jsonl")
  | "ERROR_FILE" => some (.str "data/error.jsonl")
  | "LOG_FILE" => some (.str "logs/processor.log")
  | "ID_KEY" => some (.str "id")
  | "RERUN_KEY" => some (.str "force_rerun")
  | "MAX_CONCURRENCY" => some (.int 100)
  | "WRITE_BATCH_SIZE" => some (.int 100)
  | "LOG_LEVEL" => some (.str "INFO")
  | _ => Option.none

/-- The fields `ConfigProtocol` in processor.py declares as required of the
configuration object. -/
def configProtocolFields : List String :=
  ["INPUT_FILE", "OUTPUT_FILE", "ERROR_FILE", "LOG_FILE", "ID_KEY", "RERUN_KEY",
   "MAX_CONCURRENCY", "REQUESTS_PER_MINUTE", "WRITE_BATCH_SIZE",
   "MAX_RETRIES", "RETRY_INITIAL_DELAY"]

/-- The configuration attributes `_run_processing_loop` reads, in source
order:`MAX_CONCURRENCY` (semaphore), `REQUESTS_PER_MINUTE` (rate limit),
`MAX_RETRIES` and `RETRY_INITIAL_DELAY` (retry wrapper), then `ID_KEY`,
`WRITE_BATCH_SIZE`, `OUTPUT_FILE`, `ERROR_FILE` in the loop. -/
def dispatcherConfigReads : List String :=
  ["MAX_CONCURRENCY", "REQUESTS_PER_MINUTE", "MAX_RETRIES", "RETRY_INITIAL_DELAY",
   "ID_KEY", "WRITE_BATCH_SIZE", "OUTPUT_FILE", "ERROR_FILE"]

/-! ## Orchestrator tail (processor.py `run`, `finally` block) -/

/-- The `finally` block of `run`: the shutdown hook is awaited with no
surrounding `try`, so a hook that raises replaces any in-flight outcome of
the body and the remaining statements of the block — the final report —
are skipped.  Returns the outcome that propagates out of `run` and whether
the final report was emitted. -/
def runFinallyTail (body : Except String Unit) (hook : Option (Except String Unit)) :
    Except String Unit × Bool :=
  match hook with
  | some (Except.error e) => (Except.error e, false)
  | some (Except.ok _) => (body, true)
  | Option.none => (body, true)

/-! ## Theorems -/

/-- C1: the claim asserts that the configuration object delivered at
construction supplies every key the spec requires, so the dispatcher's
reads of `MAX_RETRIES`, `RETRY_INITIAL_DELAY` and `REQUESTS_PER_MINUTE`
succeed.  The `settings` object `main.py` passes defines none of those
three attributes, although `ConfigProtocol` requires them and
`_run_processing_loop` reads them — the first such read raises
`AttributeError`. -/
theorem settings_missing_required_fields :
    settingsAttr "REQUESTS_PER_MINUTE" = Option.none ∧
    settingsAttr "MAX_RETRIES" = Option.none ∧
    settingsAttr "RETRY_INITIAL_DELAY" = Option.none ∧
    "REQUESTS_PER_MINUTE" ∈ configProtocolFields ∧
    "REQUESTS_PER_MINUTE" ∈ dispatcherConfigReads ∧
    "MAX_RETRIES" ∈ configProtocolFields ∧
    "RETRY_INITIAL_DELAY" ∈ configProtocolFields := by
  refine ⟨rfl, rfl, rfl, ?_, ?_, ?_, ?_⟩ <;>
    simp [configProtocolFields, dispatcherConfigReads]

/-- C9: the claim asserts that the selector's line counter advances by one
for every line read, so each warning reports the line's own 1-based
position.  On the input file whose line 1 is a record without an ID and
whose line 2 is unparseable, the missing-ID branch `continue`s past
`line_num += 1`, so the parse-failure warning for physical line 2 also
reports line 1. -/
theorem selector_line_number_bug :
    (getTasksToProcess "id" []
        [Except.ok [("name", PyVal.str "x")], Except.error ()]).warns
      = [(Warn.missingId, 1), (Warn.parseFail, 1)] := rfl

/-- C8 counterexample: the claim asserts that an error raised by the
shutdown hook is swallowed and does not prevent the final report.  With a
run whose body succeeded and a hook that raises, the hook's error
propagates out of `run` and the report is not emitted: the `finally` block
awaits the hook with no surrounding `try`. -/
theorem shutdown_hook_error_not_swallowed :
    runFinallyTail (Except.ok ()) (some (Except.error "boom"))
      = (Except.error "boom", false) ∧
    (runFinallyTail (Except.ok ()) (some (Except.error "boom"))).1 ≠ Except.ok () := by
  exact ⟨rfl, by simp [runFinallyTail]⟩

/-- C8 amended: an error raised by the shutdown hook is not caught — it
propagates out of the orchestrator (replacing the body's outcome) and the
final report is not emitted. -/
theorem shutdown_hook_error_propagates (body : Except String Unit) (e : String) :
    runFinallyTail body (some (Except.error e)) = (Except.error e, false) := rfl

/-- A batch containing an unserializable item makes the write loop raise. -/
theorem writeItems_error_of_unserializable :
    ∀ (batch : List PyVal) (file : List String),
      (∃ it ∈ batch, jsonDumps it = Option.none) →
      ∃ m, writeItems batch file = Except.error m := by
  intro batch
  induction batch with
  | nil => intro file h; obtain ⟨it, hmem, _⟩ := h; cases hmem
  | cons a rest ih =>
    intro file h
    obtain ⟨it, hmem, hnone⟩ := h
    rw [List.mem_cons] at hmem
    rcases hmem with rfl | hmem
    · exact ⟨"TypeError: Object is not JSON serializable", by simp [writeItems, hnone]⟩
    · cases ha : jsonDumps a with
      | none =>
        exact ⟨"TypeError: Object is not JSON serializable", by simp [writeItems, ha]⟩
      | some s =>
        obtain ⟨m, hm⟩ := ih (file ++ [s ++ "\n"]) ⟨it, hmem, hnone⟩
        exact ⟨m, by simp [writeItems, ha, hm]⟩

/-- C10: `_write_batch` swallows only OS-level I/O errors.  A batch holding
an element `json.dumps` rejects makes `append` propagate the serialization
error to the caller (first conjunct), while an `OSError` is caught, logged
and swallowed with the call returning normally (second conjunct). -/
theorem write_batch_error_policy :
    (∀ (batch : List PyVal) (file : List String),
      (∃ it ∈ batch, jsonDumps it = Option.none) →
      ∃ m, writeBatch false batch file = Except.error m) ∧
    (∀ (batch : List PyVal) (file : List String),
      writeBatch true batch file = Except.ok file) := by
  constructor
  · intro batch file h
    obtain ⟨it, hmem, hnone⟩ := h
    have hne : ¬batch.isEmpty := by
      cases batch with
      | nil => cases hmem
      | cons a rest => simp
    obtain ⟨m, hm⟩ := writeItems_error_of_unserializable batch file ⟨it, hmem, hnone⟩
    exact ⟨m, by simp [writeBatch, hne, hm]⟩
  · intro batch file
    unfold writeBatch
    split <;> simp

/-- C10 witness: the singleton batch holding an exception object is
unserializable and its write raises. -/
theorem write_batch_error_policy_witness :
    (∃ it ∈ [PyVal.exc "boom"], jsonDumps it = Option.none) ∧
    (∃ m, writeBatch false [PyVal.exc "boom"] ["old\n"] = Except.error m) := by
  refine ⟨⟨PyVal.exc "boom", by simp, rfl⟩, ?_⟩
  exact write_batch_error_policy.1 [PyVal.exc "boom"] ["old\n"]
    ⟨PyVal.exc "boom", by simp, rfl⟩

/-- When every invocation the retry loop can reach fails, the loop makes
exactly `fuel` invocations, sleeps `fuel - 1` times and re-raises the last
error. -/
theorem retryGo_all_fail {E A : Type} (op : Nat → List REv × Except E A) (errs : Nat → E) :
    ∀ (fuel i : Nat), 0 < fuel →
      (∀ j, i ≤ j → j < i + fuel → (op j).2 = Except.error (errs j)) →
      (retryGo op i fuel).result = RetryResult.err (errs (i + fuel - 1)) ∧
      (retryGo op i fuel).calls = fuel ∧
      (retryGo op i fuel).sleeps = fuel - 1 := by
  intro fuel
  induction fuel with
  | zero => omega
  | succ f ih =>
    intro i _ herr
    have hi : (op i).2 = Except.error (errs i) := herr i le_rfl (by omega)
    cases hop : op i with
    | mk evs r =>
      rw [hop] at hi; dsimp at hi; subst hi
      by_cases hf : f = 0
      · subst hf; simp [retryGo, hop]
      · have hrest := ih (i + 1) (by omega)
          (fun j hj1 hj2 => herr j (by omega) (by omega))
        simp only [retryGo, hop, if_neg hf]
        refine ⟨?_, ?_, ?_⟩
        · have harith : i + 1 + f - 1 = i + (f + 1) - 1 := by omega
          rw [hrest.1, harith]
        · rw [hrest.2.1]
        · rw [hrest.2.2]; omega

/-- When the first `k` invocations fail and the `(k+1)`-th succeeds within
the budget, the loop returns that value after exactly `k + 1` invocations
and `k` sleeps. -/
theorem retryGo_first_success {E A : Type} (op : Nat → List REv × Except E A) (a : A) :
    ∀ (k fuel i : Nat), k < fuel →
      (∀ j, i ≤ j → j < i + k → ∃ e, (op j).2 = Except.error e) →
      (op (i + k)).2 = Except.ok a →
      (retryGo op i fuel).result = RetryResult.ok a ∧
      (retryGo op i fuel).calls = k + 1 ∧
      (retryGo op i fuel).sleeps = k := by
  intro k
  induction k with
  | zero =>
    intro fuel i hk _ hok
    obtain ⟨f, rfl⟩ := Nat.exists_eq_succ_of_ne_zero (by omega : fuel ≠ 0)
    cases hop : op i with
    | mk evs r =>
      rw [show i + 0 = i by omega, hop] at hok; dsimp at hok; subst hok
      simp [retryGo, hop]
  | succ k' ih =>
    intro fuel i hk herr hok
    obtain ⟨f, rfl⟩ := Nat.exists_eq_succ_of_ne_zero (by omega : fuel ≠ 0)
    obtain ⟨e, he⟩ := herr i le_rfl (by omega)
    cases hop : op i with
    | mk evs r =>
      rw [hop] at he; dsimp at he; subst he
      have hf : f ≠ 0 := by omega
      have hrest := ih f (i + 1) (by omega)
        (fun j hj1 hj2 => herr j (by omega) (by omega))
        (by rw [show i + 1 + k' = i + (k' + 1) by omega]; exact hok)
      simp only [retryGo, hop, if_neg hf]
      exact ⟨hrest.1, by rw [hrest.2.1], by rw [hrest.2.2]⟩

/-- With a retry budget of zero the loop makes exactly one invocation,
whatever the outcome. -/
theorem retryWithBackoff_zero_calls {E A : Type} (op : Nat → List REv × Except E A) :
    (retryWithBackoff 0 op).calls = 1 := by
  cases hop : op 0 with
  | mk evs r =>
    cases r <;> simp [retryWithBackoff, retryGo, hop]

/-- C3: the retry wrapper invokes the operation exactly `retries + 1` times
when every invocation fails, re-raising the last error with no sleep after
the final failure (`retries` sleeps for `retries + 1` calls); it returns
the operation's value at the first successful invocation, having slept
once per preceding failure; with `MAX_RETRIES = 0` exactly one attempt is
made. -/
theorem retry_wrapper_spec {E A : Type} (retries : Nat) (op : Nat → List REv × Except E A)
    (errs : Nat → E) (a : A) (k : Nat) :
    ((∀ j, j ≤ retries → (op j).2 = Except.error (errs j)) →
      (retryWithBackoff retries op).result = RetryResult.err (errs retries) ∧
      (retryWithBackoff retries op).calls = retries + 1 ∧
      (retryWithBackoff retries op).sleeps = retries) ∧
    (k ≤ retries →
      (∀ j, j < k → ∃ e, (op j).2 = Except.error e) →
      (op k).2 = Except.ok a →
      (retryWithBackoff retries op).result = RetryResult.ok a ∧
      (retryWithBackoff retries op).calls = k + 1 ∧
      (retryWithBackoff retries op).sleeps = k) ∧
    (retryWithBackoff 0 op).calls = 1 := by
  refine ⟨?_, ?_, retryWithBackoff_zero_calls op⟩
  · intro h
    have := retryGo_all_fail op errs (retries + 1) 0 (by omega)
      (fun j hj1 hj2 => h j (by omega))
    simpa [retryWithBackoff] using this
  · intro hk herr hok
    have := retryGo_first_success op a k (retries + 1) 0 (by omega)
      (fun j hj1 hj2 => herr j (by omega))
      (by rw [show 0 + k = k by omega]; exact hok)
    simpa [retryWithBackoff] using this

/-- C3 witness: with `retries = 2` and an operation failing every time the
wrapper makes 3 calls and re-raises the error; with an operation failing
once then succeeding it returns the value after 2 calls and 1 sleep. -/
theorem retry_wrapper_spec_witness :
    (∀ j, j ≤ 2 →
      ((fun _ => (([] : List REv), (Except.error "e" : Except String Nat))) j).2
        = Except.error ((fun _ => "e") j)) ∧
    (retryWithBackoff 2 (fun _ => ([], Except.error "e")) :
        RetryOut String Nat).result = RetryResult.err "e" ∧
    (retryWithBackoff 2 (fun _ => (([] : List REv), (Except.error "e" : Except String Nat)))).calls = 3 ∧
    (1 ≤ 2 ∧
      (retryWithBackoff 2 (fun j => (([] : List REv),
          if j = 0 then (Except.error "e" : Except String Nat) else Except.ok 7))).result
        = RetryResult.ok 7 ∧
      (retryWithBackoff 2 (fun j => (([] : List REv),
          if j = 0 then (Except.error "e" : Except String Nat) else Except.ok 7))).calls = 2) := by
  have hfail := (retry_wrapper_spec 2 (fun _ => (([] : List REv), (Except.error "e" : Except String Nat)))
    (fun _ => "e") 7 1).1 (fun j _ => rfl)
  have hsucc := (retry_wrapper_spec 2 (fun j => (([] : List REv),
      if j = 0 then (Except.error "e" : Except String Nat) else Except.ok 7))
    (fun _ => "e") 7 1).2.1 (by decide)
    (fun j hj => ⟨"e", by interval_cases j; rfl⟩) rfl
  exact ⟨fun j _ => rfl, hfail.1, hfail.2.1, by decide, hsucc.1, hsucc.2.1⟩

/-- Is every `callFn` event in the trace immediately preceded by a
`rateWait` event? -/
def callsPreceded : List REv → Bool
  | [] => true
  | REv.rateWait :: REv.callFn :: rest => callsPreceded rest
  | REv.callFn :: _ => false
  | _ :: rest => callsPreceded rest

/-- Structure of the robust processor's event trace: every invocation of
the user function sits directly after a rate-limit wait, and waits,
invocations and counted calls are in bijection. -/
theorem robust_trace_props {E A : Type} (script : Nat → Except E A) :
    ∀ (fuel i : Nat),
      callsPreceded (retryGo (fun j => (rateLimitedEvents true, script j)) i fuel).trace = true ∧
      (retryGo (fun j => (rateLimitedEvents true, script j)) i fuel).trace.count REv.callFn
        = (retryGo (fun j => (rateLimitedEvents true, script j)) i fuel).calls ∧
      (retryGo (fun j => (rateLimitedEvents true, script j)) i fuel).trace.count REv.rateWait
        = (retryGo (fun j => (rateLimitedEvents true, script j)) i fuel).calls ∧
      (retryGo (fun j => (rateLimitedEvents true, script j)) i fuel).calls ≤ fuel := by
  intro fuel
  induction fuel with
  | zero =>
    intro i
    simp [retryGo, callsPreceded]
  | succ f ih =>
    intro i
    cases hs : script i with
    | ok a =>
      simp [retryGo, rateLimitedEvents, hs, callsPreceded, List.count_cons]
    | error e =>
      by_cases hf : f = 0
      · subst hf
        simp [retryGo, rateLimitedEvents, hs, callsPreceded, List.count_cons]
      · have hrest := ih (i + 1)
        simp only [retryGo, rateLimitedEvents, hs, if_neg hf, if_pos]
        refine ⟨?_, ?_, ?_, ?_⟩
        · simpa [callsPreceded] using hrest.1
        · simpa [List.count_cons] using hrest.2.1
        · simpa [List.count_cons] using hrest.2.2.1
        · have h4 := hrest.2.2.2
          simp [rateLimitedEvents] at h4
          omega

/-- C5: rate limiting is composed inside the retry wrapper.  In
`robust_processor = retry_with_backoff(...)(rate_limited_process)` with an
active rate limit, every invocation of the user function is immediately
preceded by a rate-limit wait, the number of waits equals the number of
invocations (each of the up-to `retries + 1` attempts consumes its own
rate-limit slot), and at most `retries + 1` attempts occur. -/
theorem rate_limit_inside_retry {E A : Type} (retries : Nat) (script : Nat → Except E A) :
    callsPreceded (robustProcessor retries true script).trace = true ∧
    (robustProcessor retries true script).trace.count REv.callFn
      = (robustProcessor retries true script).calls ∧
    (robustProcessor retries true script).trace.count REv.rateWait
      = (robustProcessor retries true script).calls ∧
    (robustProcessor retries true script).calls ≤ retries + 1 :=
  robust_trace_props script (retries + 1) 0

/-- With an active delay, one pass through the rate-limit section sets the
shared timestamp to the protected call's start time, and that start time
is at least one full delay after the previous timestamp. -/
theorem rateLimitedStart_pos (delay last now : ℚ) (h : 0 < delay) :
    (rateLimitedStart delay last now).2 = (rateLimitedStart delay last now).1 ∧
    last + delay ≤ (rateLimitedStart delay last now).1 := by
  unfold rateLimitedStart
  rw [if_pos h]
  refine ⟨rfl, ?_⟩
  dsimp only
  split
  · exact le_refl _
  · linarith [not_lt.mp (by assumption : ¬now - last < delay)]

/-- Every start the limiter produces lies at least one delay after the
timestamp it started from. -/
theorem limiterTrace_lb (delay : ℚ) (h : 0 < delay) :
    ∀ (acqs : List ℚ) (last x : ℚ), x ∈ limiterTrace delay last acqs →
      last + delay ≤ x := by
  intro acqs
  induction acqs with
  | nil => intro last x hx; simp [limiterTrace] at hx
  | cons a as ih =>
    intro last x hx
    rw [limiterTrace] at hx
    rcases List.mem_cons.mp hx with rfl | hx
    · exact (rateLimitedStart_pos delay last a h).2
    · have h1 := ih (rateLimitedStart delay last a).2 x hx
      have h2 := (rateLimitedStart_pos delay last a h).2
      have h3 := (rateLimitedStart_pos delay last a h).1
      rw [h3] at h1
      linarith

/-- Any two starts in a limiter trace are at least one delay apart. -/
theorem limiterTrace_pairwise (delay : ℚ) (h : 0 < delay) :
    ∀ (acqs : List ℚ) (last : ℚ),
      List.Pairwise (fun s t => s + delay ≤ t) (limiterTrace delay last acqs) := by
  intro acqs
  induction acqs with
  | nil => intro last; simp [limiterTrace]
  | cons a as ih =>
    intro last
    rw [limiterTrace]
    refine List.Pairwise.cons ?_ (ih _)
    intro x hx
    have h1 := limiterTrace_lb delay h as (rateLimitedStart delay last a).2 x hx
    rw [(rateLimitedStart_pos delay last a h).1] at h1
    exact h1

/-- C4: with `R > 0` configured requests per minute, any two starts of
rate-limited protected calls are at least `60/R` apart (the wait is
computed and slept under the mutex and the timestamp updated to the
post-sleep time, which serializes the starts); with `R ≤ 0` the computed
delay is zero, the rate-limit section is skipped, no wait is imposed and
the shared timestamp is left untouched. -/
theorem rate_limiter_spacing (rpm : Int) (last now : ℚ) (acqs : List ℚ) :
    (0 < rpm →
      0 < requestDelay rpm ∧
      (rateLimitedStart (requestDelay rpm) last now).2
        = (rateLimitedStart (requestDelay rpm) last now).1 ∧
      last + requestDelay rpm ≤ (rateLimitedStart (requestDelay rpm) last now).1 ∧
      List.Pairwise (fun s t => s + requestDelay rpm ≤ t)
        (limiterTrace (requestDelay rpm) last acqs)) ∧
    (rpm ≤ 0 →
      requestDelay rpm = 0 ∧
      rateLimitedStart (requestDelay rpm) last now = (now, last)) := by
  constructor
  · intro h
    have hd : 0 < requestDelay rpm := by
      unfold requestDelay
      rw [if_pos h]
      have : (0:ℚ) < (rpm : ℚ) := by exact_mod_cast h
      positivity
    exact ⟨hd, (rateLimitedStart_pos _ _ _ hd).1, (rateLimitedStart_pos _ _ _ hd).2,
      limiterTrace_pairwise _ hd acqs last⟩
  · intro h
    have hd : requestDelay rpm = 0 := by
      unfold requestDelay
      rw [if_neg (by omega)]
    refine ⟨hd, ?_⟩
    rw [hd]
    simp [rateLimitedStart]

/-- C4 witness: with 60 requests per minute the delay is one second and
two back-to-back acquisitions start at least one second apart; with the
rate limit disabled the limiter is a no-op. -/
theorem rate_limiter_spacing_witness :
    ((0:Int) < 60 ∧
      List.Pairwise (fun s t => s + requestDelay 60 ≤ t)
        (limiterTrace (requestDelay 60) 0 [0, 0])) ∧
    ((0:Int) ≤ 0 ∧ requestDelay 0 = 0 ∧
      rateLimitedStart (requestDelay 0) 3 5 = (5, 3)) := by
  have h1 := (rate_limiter_spacing 60 0 0 [0, 0]).1 (by decide)
  have h2 := (rate_limiter_spacing 0 3 5 []).2 (by decide)
  exact ⟨⟨by decide, h1.2.2.2⟩, by decide, h2.1, h2.2⟩

/-- C6: each consumed outcome is classified into exactly one of three
cases.  A terminal error surfaces as the worker's `(exception, task)`
tuple, which appends exactly one failure record and increments only the
error count; a `None` return leaves batches, counters and files untouched
(voided); any other non-`None`, non-tuple return value — in particular any
dict, the user function's declared success type — is appended verbatim to
the success batch and increments only the success count. -/
theorem outcome_classification (idKey : String) (st : LoopState) (m : String)
    (task es : Dict) (v : PyVal) :
    worker (RetryResult.err m) task = PyVal.tuple [PyVal.exc m, PyVal.dict task] ∧
    classifyUpdate idKey st (PyVal.tuple [PyVal.exc m, PyVal.dict task])
      = Except.ok { st with
          errorsBatch := st.errorsBatch ++ [mkFailureRecord idKey m task],
          errorCount := st.errorCount + 1 } ∧
    classifyUpdate idKey st PyVal.none = Except.ok st ∧
    classifyUpdate idKey st (PyVal.dict es)
      = Except.ok { st with
          resultsBatch := st.resultsBatch ++ [PyVal.dict es],
          successCount := st.successCount + 1 } ∧
    (v ≠ PyVal.none → (∀ l, v ≠ PyVal.tuple l) →
      classifyUpdate idKey st v
        = Except.ok { st with
            resultsBatch := st.resultsBatch ++ [v],
            successCount := st.successCount + 1 }) := by
  refine ⟨rfl, rfl, rfl, rfl, ?_⟩
  intro hnone htuple
  cases v with
  | none => exact absurd rfl hnone
  | tuple l => exact absurd rfl (htuple l)
  | bool b => rfl
  | int n => rfl
  | str s => rfl
  | list l => rfl
  | dict d => rfl
  | exc e => rfl

/-- C6 witness: a concrete failure tuple, `None` and a plain string value
are classified as failure, voided and success respectively. -/
theorem outcome_classification_witness :
    (PyVal.str "v" ≠ PyVal.none ∧ ∀ l, PyVal.str "v" ≠ PyVal.tuple l) ∧
    classifyUpdate "id" (initLoopState [] []) (PyVal.str "v")
      = Except.ok { initLoopState [] [] with
          resultsBatch := [PyVal.str "v"], successCount := 1 } := by
  have h := (outcome_classification "id" (initLoopState [] []) "m" [] [] (PyVal.str "v")).2.2.2.2
    (by simp) (fun l => by simp)
  refine ⟨⟨by simp, fun l => by simp⟩, ?_⟩
  simpa [initLoopState] using h

mutual
/-- Python `==` is reflexive on the embedded values. -/
theorem pyBeq_refl : ∀ v : PyVal, pyBeq v v = true
  | .none => rfl
  | .bool b => by simp [pyBeq]
  | .int n => by simp [pyBeq]
  | .str s => by simp [pyBeq]
  | .list l => by simp [pyBeq, pyBeqList_refl l]
  | .tuple l => by simp [pyBeq, pyBeqList_refl l]
  | .dict d => by simp [pyBeq, pyBeqEntries_refl d]
  | .exc s => by simp [pyBeq]

theorem pyBeqList_refl : ∀ l : List PyVal, pyBeqList l l = true
  | [] => rfl
  | a :: as => by simp [pyBeqList, pyBeq_refl a, pyBeqList_refl as]

theorem pyBeqEntries_refl : ∀ l : List (String × PyVal), pyBeqEntries l l = true
  | [] => rfl
  | (k, v) :: es => by simp [pyBeqEntries, pyBeq_refl v, pyBeqEntries_refl es]
end

/-- Every task the selector emits fails the processed-set membership
test. -/
theorem selectGo_excludes_processed (idKey : String) (processed : List PyVal) :
    ∀ (lines : List Line) (n : Nat) (t : Dict),
      t ∈ (selectGo idKey processed lines n).tasks →
      processed.any (fun p => pyBeq (dGet t idKey) p) = false := by
  intro lines
  induction lines with
  | nil => intro n t ht; simp [selectGo] at ht
  | cons l rest ih =>
    intro n t ht
    cases l with
    | error u =>
      rw [selectGo] at ht
      exact ih (n + 1) t ht
    | ok d =>
      rw [selectGo] at ht
      dsimp at ht
      by_cases htr : pyTruthy (dGet d idKey)
      · rw [if_neg (by simp [htr])] at ht
        by_cases hmem : processed.any (fun p => pyBeq (dGet d idKey) p) = true
        · rw [if_pos hmem] at ht
          exact ih (n + 1) t ht
        · rw [if_neg hmem] at ht
          rcases List.mem_cons.mp ht with rfl | ht
          · exact Bool.not_eq_true _ ▸ (Bool.eq_false_iff.mpr hmem)
          · exact ih (n + 1) t ht
      · rw [if_pos (by simp [htr])] at ht
        exact ih n t ht

/-- Every parseable success-file line with a truthy ID and no active rerun
marker contributes its ID to the processed set. -/
theorem loadProcessedState_adds (idKey : String) (rerunKey : Option String) :
    ∀ (outLines : List Line) (d : Dict),
      Except.ok d ∈ outLines →
      pyTruthy (dGet d idKey) = true →
      (rerunConfigured rerunKey && hasKey d (rerunKey.getD "")) = false →
      dGet d idKey ∈ loadProcessedState idKey rerunKey outLines := by
  intro outLines
  induction outLines with
  | nil => intro d hd; simp at hd
  | cons l rest ih =>
    intro d hd htr hrerun
    cases hd with
    | head =>
      rw [loadProcessedState]
      rw [if_neg (by simp [htr]), if_neg (by simp [hrerun])]
      exact List.mem_cons_self _ _
    | tail b hd =>
      cases l with
      | error u =>
        rw [loadProcessedState]
        exact ih d hd htr hrerun
      | ok d' =>
        rw [loadProcessedState]
        split
        · exact ih d hd htr hrerun
        · split
          · exact ih d hd htr hrerun
          · exact List.mem_cons_of_mem _ (ih d hd htr hrerun)

/-- When every parseable input record with a truthy ID is already in the
processed set, the selector emits no task. -/
theorem selectGo_empty_of_covered (idKey : String) (processed : List PyVal) :
    ∀ (lines : List Line) (n : Nat),
      (∀ d : Dict, Except.ok d ∈ lines → pyTruthy (dGet d idKey) = true →
        dGet d idKey ∈ processed) →
      (selectGo idKey processed lines n).tasks = [] := by
  intro lines
  induction lines with
  | nil => intro n _; simp [selectGo]
  | cons l rest ih =>
    intro n hcov
    cases l with
    | error u =>
      rw [selectGo]
      exact ih (n + 1) (fun d hd => hcov d (List.mem_cons_of_mem _ hd))
    | ok d =>
      rw [selectGo]
      dsimp
      by_cases htr : pyTruthy (dGet d idKey)
      · rw [if_neg (by simp [htr])]
        have hmem : processed.any (fun p => pyBeq (dGet d idKey) p) = true := by
          rw [List.any_eq_true]
          exact ⟨dGet d idKey, hcov d (List.mem_cons_self _ _) htr, pyBeq_refl _⟩
        rw [if_pos hmem]
        exact ih (n + 1) (fun d' hd' => hcov d' (List.mem_cons_of_mem _ hd'))
      · rw [if_pos (by simp [htr])]
        exact ih n (fun d' hd' => hcov d' (List.mem_cons_of_mem _ hd'))

/-- C7: resume idempotence.  (1) Every parseable success-file line with an
extractable (truthy) ID and no configured-and-present rerun marker puts
that ID into the processed set; (2) the selector emits no record whose ID
passes the processed-set membership test; (3) when every parseable input
record's ID is in the processed set — as holds for an unchanged input
whose records were all recorded in the success file — the selector emits
zero tasks, so the run produces zero new success or failure records. -/
theorem resume_idempotence (idKey : String) (rerunKey : Option String)
    (outLines inLines : List Line) (processed : List PyVal) (d : Dict) :
    (Except.ok d ∈ outLines →
      pyTruthy (dGet d idKey) = true →
      (rerunConfigured rerunKey && hasKey d (rerunKey.getD "")) = false →
      dGet d idKey ∈ loadProcessedState idKey rerunKey outLines) ∧
    (∀ t : Dict, t ∈ (getTasksToProcess idKey processed inLines).tasks →
      processed.any (fun p => pyBeq (dGet t idKey) p) = false) ∧
    ((∀ d' : Dict, Except.ok d' ∈ inLines → pyTruthy (dGet d' idKey) = true →
        dGet d' idKey ∈ loadProcessedState idKey rerunKey outLines) →
      (getTasksToProcess idKey (loadProcessedState idKey rerunKey outLines) inLines).tasks
        = []) := by
  refine ⟨fun h1 h2 h3 => loadProcessedState_adds idKey rerunKey outLines d h1 h2 h3,
    fun t ht => selectGo_excludes_processed idKey processed inLines 1 t ht,
    fun hcov => selectGo_empty_of_covered idKey _ inLines 1 hcov⟩

/-- C7 witness: with a success file holding records `a` and `b` and the
same two records in the input, the loader recovers both IDs and the
selector emits nothing. -/
theorem resume_idempotence_witness :
    (Except.ok [("id", PyVal.str "a")] ∈
        ([Except.ok [("id", PyVal.str "a")], Except.ok [("id", PyVal.str "b")]] : List Line) ∧
      pyTruthy (dGet [("id", PyVal.str "a")] "id") = true ∧
      (rerunConfigured (some "force_rerun")
        && hasKey [("id", PyVal.str "a")] ((some "force_rerun").getD "")) = false ∧
      PyVal.str "a" ∈ loadProcessedState "id" (some "force_rerun")
        [Except.ok [("id", PyVal.str "a")], Except.ok [("id", PyVal.str "b")]]) ∧
    ((∀ d' : Dict,
        Except.ok d' ∈ ([Except.ok [("id", PyVal.str "a")], Except.ok [("id", PyVal.str "b")]] : List Line) →
        pyTruthy (dGet d' "id") = true →
        dGet d' "id" ∈ loadProcessedState "id" (some "force_rerun")
          [Except.ok [("id", PyVal.str "a")], Except.ok [("id", PyVal.str "b")]]) ∧
      (getTasksToProcess "id"
        (loadProcessedState "id" (some "force_rerun")
          [Except.ok [("id", PyVal.str "a")], Except.ok [("id", PyVal.str "b")]])
        [Except.ok [("id", PyVal.str "a")], Except.ok [("id", PyVal.str "b")]]).tasks = []) := by
  have hcov : ∀ d' : Dict,
      Except.ok d' ∈ ([Except.ok [("id", PyVal.str "a")], Except.ok [("id", PyVal.str "b")]] : List Line) →
      pyTruthy (dGet d' "id") = true →
      dGet d' "id" ∈ loadProcessedState "id" (some "force_rerun")
        [Except.ok [("id", PyVal.str "a")], Except.ok [("id", PyVal.str "b")]] := by
    intro d' hd' _
    rcases List.mem_cons.mp hd' with h | hd'
    · cases Except.ok.inj h
      exact List.mem_cons_self _ _
    · rcases List.mem_cons.mp hd' with h | hd'
      · cases Except.ok.inj h
        exact List.mem_cons_of_mem _ (List.mem_cons_self _ _)
      · simp at hd'
  have hmem := (resume_idempotence "id" (some "force_rerun")
      [Except.ok [("id", PyVal.str "a")], Except.ok [("id", PyVal.str "b")]]
      [Except.ok [("id", PyVal.str "a")], Except.ok [("id", PyVal.str "b")]]
      [] [("id", PyVal.str "a")]).1
      (List.mem_cons_self _ _) rfl rfl
  have hempty := (resume_idempotence "id" (some "force_rerun")
      [Except.ok [("id", PyVal.str "a")], Except.ok [("id", PyVal.str "b")]]
      [Except.ok [("id", PyVal.str "a")], Except.ok [("id", PyVal.str "b")]]
      [] [("id", PyVal.str "a")]).2.2 hcov
  exact ⟨⟨List.mem_cons_self _ _, rfl, rfl, by simpa using hmem⟩, hcov, hempty⟩

/-- The success record a worker result contributes, if any: the outcome
loop emits every non-`None`, non-failure-tuple result verbatim. -/
def emittedSuccessItem : PyVal → Option PyVal
  | PyVal.none => Option.none
  | PyVal.tuple _ => Option.none
  | v => some v

/-- The failure record a worker result contributes, if any. -/
def emittedFailureItem (idKey : String) : PyVal → Option PyVal
  | PyVal.tuple [PyVal.exc m, PyVal.dict d] => some (mkFailureRecord idKey m d)
  | _ => Option.none

/-- The file lines a list of records serializes to. -/
def dumpLines (items : List PyVal) : List String :=
  items.filterMap (fun v => (jsonDumps v).map (fun s => s ++ "\n"))

/-- The shape of results the worker actually hands to the outcome loop
when the user function honours its declared `Dict | None` return type: a
failure tuple over the original task dict, `None`, or a dict — with the
emitted record serializable. -/
def WorkerShaped (idKey : String) (r : PyVal) : Prop :=
  (∃ m d, r = PyVal.tuple [PyVal.exc m, PyVal.dict d] ∧
    (jsonDumps (mkFailureRecord idKey m d)).isSome = true) ∨
  r = PyVal.none ∨
  (∃ es, r = PyVal.dict es ∧ (jsonDumps (PyVal.dict es)).isSome = true)

/-- Invariant of the outcome loop relative to the results consumed so far:
each file plus its pending batch holds exactly the prior contents plus
every record classified so far, and pending batch items are
serializable. -/
def GoodState (idKey : String) (outFile0 errFile0 : List String)
    (past : List PyVal) (st : LoopState) : Prop :=
  st.outFile ++ dumpLines st.resultsBatch
      = outFile0 ++ dumpLines (past.filterMap emittedSuccessItem) ∧
  st.errFile ++ dumpLines st.errorsBatch
      = errFile0 ++ dumpLines (past.filterMap (emittedFailureItem idKey)) ∧
  (∀ v ∈ st.resultsBatch, (jsonDumps v).isSome = true) ∧
  (∀ v ∈ st.errorsBatch, (jsonDumps v).isSome = true)

/-- A batch of serializable records writes cleanly, appending one line per
record. -/
theorem writeItems_ok :
    ∀ (batch : List PyVal) (file : List String),
      (∀ v ∈ batch, (jsonDumps v).isSome = true) →
      writeItems batch file = Except.ok (file ++ dumpLines batch) := by
  intro batch
  induction batch with
  | nil => intro file _; simp [writeItems, dumpLines]
  | cons a rest ih =>
    intro file h
    obtain ⟨s, hs⟩ := Option.isSome_iff_exists.mp (h a (List.mem_cons_self _ _))
    rw [writeItems, hs]
    dsimp only
    rw [ih (file ++ [s ++ "\n"]) (fun v hv => h v (List.mem_cons_of_mem _ hv))]
    simp [dumpLines, List.filterMap_cons, hs]

/-- `_write_batch` on a serializable batch with no I/O failure appends one
line per record. -/
theorem writeBatch_ok (batch : List PyVal) (file : List String)
    (h : ∀ v ∈ batch, (jsonDumps v).isSome = true) :
    writeBatch false batch file = Except.ok (file ++ dumpLines batch) := by
  cases batch with
  | nil => simp [writeBatch, dumpLines]
  | cons a rest =>
    rw [writeBatch, if_neg (by simp), if_neg (by simp)]
    exact writeItems_ok _ _ h

/-- The threshold flushes preserve the loop invariant. -/
theorem flushIfFull_good (idKey : String) (bs : Nat) (outFile0 errFile0 : List String)
    (past : List PyVal) (st : LoopState) (h : GoodState idKey outFile0 errFile0 past st) :
    ∃ st', flushIfFull bs st = Except.ok st' ∧
      GoodState idKey outFile0 errFile0 past st' := by
  obtain ⟨h1, h2, h3, h4⟩ := h
  have hw1 := writeBatch_ok st.resultsBatch st.outFile h3
  have hw2 := writeBatch_ok st.errorsBatch st.errFile h4
  by_cases c1 : bs ≤ st.resultsBatch.length <;>
    by_cases c2 : bs ≤ st.errorsBatch.length
  · refine ⟨⟨[], [], st.successCount, st.errorCount,
        st.outFile ++ dumpLines st.resultsBatch, st.errFile ++ dumpLines st.errorsBatch⟩,
      ?_, ?_, ?_, by simp, by simp⟩
    · simp [flushIfFull, c1, c2, hw1, hw2, Bind.bind, Except.bind, Pure.pure, Except.pure]
    · simpa [dumpLines] using h1
    · simpa [dumpLines] using h2
  · refine ⟨⟨[], st.errorsBatch, st.successCount, st.errorCount,
        st.outFile ++ dumpLines st.resultsBatch, st.errFile⟩,
      ?_, ?_, h2, by simp, h4⟩
    · simp [flushIfFull, c1, c2, hw1, hw2, Bind.bind, Except.bind, Pure.pure, Except.pure]
    · simpa [dumpLines] using h1
  · refine ⟨⟨st.resultsBatch, [], st.successCount, st.errorCount,
        st.outFile, st.errFile ++ dumpLines st.errorsBatch⟩,
      ?_, h1, ?_, h3, by simp⟩
    · simp [flushIfFull, c1, c2, hw1, hw2, Bind.bind, Except.bind, Pure.pure, Except.pure]
    · simpa [dumpLines] using h2
  · exact ⟨st, by simp [flushIfFull, c1, c2, Bind.bind, Except.bind, Pure.pure, Except.pure],
      h1, h2, h3, h4⟩

/-- The classification block preserves the loop invariant, extending the
consumed list by the classified result. -/
theorem classifyUpdate_good (idKey : String) (outFile0 errFile0 : List String)
    (past : List PyVal) (st : LoopState) (r : PyVal)
    (hr : WorkerShaped idKey r) (h : GoodState idKey outFile0 errFile0 past st) :
    ∃ st', classifyUpdate idKey st r = Except.ok st' ∧
      GoodState idKey outFile0 errFile0 (past ++ [r]) st' := by
  obtain ⟨h1, h2, h3, h4⟩ := h
  rcases hr with ⟨m, d, rfl, hser⟩ | rfl | ⟨es, rfl, hser⟩
  · refine ⟨_, rfl, ?_, ?_, h3, ?_⟩
    · simpa [dumpLines, List.filterMap_append, emittedSuccessItem] using h1
    · obtain ⟨s, hs⟩ := Option.isSome_iff_exists.mp hser
      simp only [List.filterMap_append, dumpLines, List.filterMap_cons, emittedFailureItem]
      simp [hs, ← List.append_assoc]
      simpa [dumpLines, hs] using h2
    · intro v hv
      rcases List.mem_append.mp hv with hv | hv
      · exact h4 v hv
      · simp at hv; subst hv; exact hser
  · exact ⟨st, rfl, by simpa [emittedSuccessItem] using h1,
      by simpa [emittedFailureItem] using h2, h3, h4⟩
  · refine ⟨_, rfl, ?_, ?_, ?_, h4⟩
    · obtain ⟨s, hs⟩ := Option.isSome_iff_exists.mp hser
      simp only [List.filterMap_append, dumpLines, List.filterMap_cons, emittedSuccessItem]
      simp [hs, ← List.append_assoc]
      simpa [dumpLines, hs] using h1
    · simpa [dumpLines, List.filterMap_append, emittedFailureItem] using h2
    · intro v hv
      rcases List.mem_append.mp hv with hv | hv
      · exact h3 v hv
      · simp at hv; subst hv; exact hser

/-- The outcome loop preserves the invariant over any list of consumed
worker results. -/
theorem processResults_good (idKey : String) (bs : Nat) (outFile0 errFile0 : List String) :
    ∀ (results : List PyVal) (past : List PyVal) (st : LoopState),
      (∀ r ∈ results, WorkerShaped idKey r) →
      GoodState idKey outFile0 errFile0 past st →
      ∃ st', processResults idKey bs st results = Except.ok st' ∧
        GoodState idKey outFile0 errFile0 (past ++ results) st' := by
  intro results
  induction results with
  | nil => intro past st _ h; exact ⟨st, rfl, by simpa using h⟩
  | cons r rest ih =>
    intro past st hshape h
    obtain ⟨st1, hc, h1⟩ := classifyUpdate_good idKey outFile0 errFile0 past st r
      (hshape r (List.mem_cons_self _ _)) h
    obtain ⟨st2, hf, h2⟩ := flushIfFull_good idKey bs outFile0 errFile0 (past ++ [r]) st1 h1
    obtain ⟨st3, hp, h3⟩ := ih (past ++ [r]) st2
      (fun r' hr' => hshape r' (List.mem_cons_of_mem _ hr')) h2
    refine ⟨st3, ?_, by simpa [List.append_assoc] using h3⟩
    simp [processResults, loopStep, hc, hf, hp, Bind.bind, Except.bind]

/-- C2: terminal flush.  For every run of the dispatcher — `consumed` being
all worker results on normal completion, or the prefix consumed before a
propagated cancellation or error interrupted the loop — the `finally`
block flushes both pending partial batches, so the dispatcher returns with
the success and failure files holding the prior contents plus every
classified record, none left pending. -/
theorem dispatcher_terminal_flush (idKey : String) (bs : Nat)
    (outFile errFile : List String) (consumed : List PyVal)
    (h : ∀ r ∈ consumed, WorkerShaped idKey r) :
    dispatcherFiles idKey bs outFile errFile consumed =
      Except.ok (outFile ++ dumpLines (consumed.filterMap emittedSuccessItem),
                 errFile ++ dumpLines (consumed.filterMap (emittedFailureItem idKey))) := by
  have hinit : GoodState idKey outFile errFile [] (initLoopState outFile errFile) := by
    refine ⟨by simp [initLoopState, dumpLines], by simp [initLoopState, dumpLines],
      by simp [initLoopState], by simp [initLoopState]⟩
  obtain ⟨st, hp, hgood⟩ := processResults_good idKey bs outFile errFile consumed []
    (initLoopState outFile errFile) h hinit
  obtain ⟨g1, g2, g3, g4⟩ := hgood
  have hw1 := writeBatch_ok st.resultsBatch st.outFile g3
  have hw2 := writeBatch_ok st.errorsBatch st.errFile g4
  simp only [List.nil_append] at g1 g2
  simp [dispatcherFiles, finalFlush, hp, hw1, hw2, Bind.bind, Except.bind, g1, g2]

/-- C2 witness: a three-result run (one success, one voided, one failure)
with batch size 1 ends with both files complete and nothing pending. -/
theorem dispatcher_terminal_flush_witness :
    (∀ r ∈ [PyVal.dict [("id", PyVal.str "a")], PyVal.none,
        PyVal.tuple [PyVal.exc "boom", PyVal.dict [("id", PyVal.str "b")]]],
      WorkerShaped "id" r) ∧
    dispatcherFiles "id" 1 [] []
        [PyVal.dict [("id", PyVal.str "a")], PyVal.none,
         PyVal.tuple [PyVal.exc "boom", PyVal.dict [("id", PyVal.str "b")]]] =
      Except.ok
        ([PyVal.dict [("id", PyVal.str "a")], PyVal.none,
            PyVal.tuple [PyVal.exc "boom", PyVal.dict [("id", PyVal.str "b")]]].filterMap
              emittedSuccessItem |> dumpLines,
         [PyVal.dict [("id", PyVal.str "a")], PyVal.none,
            PyVal.tuple [PyVal.exc "boom", PyVal.dict [("id", PyVal.str "b")]]].filterMap
              (emittedFailureItem "id") |> dumpLines) := by
  have hshape : ∀ r ∈ [PyVal.dict [("id", PyVal.str "a")], PyVal.none,
      PyVal.tuple [PyVal.exc "boom", PyVal.dict [("id", PyVal.str "b")]]],
      WorkerShaped "id" r := by
    intro r hr
    rcases List.mem_cons.mp hr with rfl | hr
    · exact Or.inr (Or.inr ⟨[("id", PyVal.str "a")], rfl, rfl⟩)
    · rcases List.mem_cons.mp hr with rfl | hr
      · exact Or.inr (Or.inl rfl)
      · rcases List.mem_cons.mp hr with rfl | hr
        · exact Or.inl ⟨"boom", [("id", PyVal.str "b")], rfl, rfl⟩
        · simp at hr
  have := dispatcher_terminal_flush "id" 1 [] []
    [PyVal.dict [("id", PyVal.str "a")], PyVal.none,
     PyVal.tuple [PyVal.exc "boom", PyVal.dict [("id", PyVal.str "b")]]] hshape
  exact ⟨hshape, by simpa using this⟩
